import Mathlib

/-!
Verification of the GO-WP-Domain-Check repository against its design
specification.

The development shallowly embeds the repository's three prototypes:

* `src/unnamed/part_003` (the concurrent Go checker: `isValidDomain`,
  `isValidVersion`, `detectWordPress`, `checkDomain`,
  `processDomainsConcurrently`, `makeRequest`, `isBlankScreen`,
  `isCloudflare`, `stripTags`);
* `src/WIP-with-proxies/main.go` (the proxy-capable Go checker:
  `detectWordPress`, `processResult`, `checkDomain`, `loadProxies`,
  `markProxyAsInactive`, and the proxy retry loop of `main`);
* `src/php-version/main.php` where it disambiguates the Go code
  (deterministic plugin ordering of `processWordPressData`).

Strings are modelled as their character lists.  The concrete regular
expressions of the sources are implemented as dedicated scanners with
Go's leftmost-first matching semantics; greedy character classes
are maximal runs, which coincides with RE2 backtracking order for the
patterns that occur here (every class is followed by a character the
class excludes, or by nothing).  Network calls, DNS lookups and the
file system are abstracted as explicit oracles passed to the embedded
functions; wall-clock latency fields are not modelled.
-/

namespace WPCheck

/-- Decimal digit, the regex class \d used by isValidVersion
(src/unnamed/part_003 line 384). -/
def isDigitCh (c : Char) : Bool := 48 ≤ c.toNat && c.toNat ≤ 57

/-- The character class [0-9.] used by every version-capturing regex of the
repository. -/
def isVerChar (c : Char) : Bool := isDigitCh c || c.toNat == 46

/-- The whitespace class \s of Go regexp (RE2): tab, newline, form feed,
carriage return, space. -/
def isGoSpace (c : Char) : Bool :=
  c.toNat == 9 || c.toNat == 10 || c.toNat == 12 || c.toNat == 13 || c.toNat == 32

/-- ASCII letter. -/
def isAlphaCh (c : Char) : Bool :=
  (65 ≤ c.toNat && c.toNat ≤ 90) || (97 ≤ c.toNat && c.toNat ≤ 122)

/-- ASCII letter or digit. -/
def isAlnumCh (c : Char) : Bool := isAlphaCh c || isDigitCh c

/-- ASCII lower-casing of one character.  Models strings.ToLower as used by
detectWordPress (src/unnamed/part_003 line 389); all markers searched in the
lowered body are ASCII, where Go's Unicode lowering agrees with this map. -/
def lowerCh (c : Char) : Char :=
  if 65 ≤ c.toNat && c.toNat ≤ 90 then Char.ofNat (c.toNat + 32) else c

/-- Lower-cased copy of a string. -/
def lowerStr (s : String) : String := String.mk (s.data.map lowerCh)

/-- Does the pattern occur as a prefix of the list? -/
def startsWithL : List Char → List Char → Bool
  | [], _ => true
  | _ :: _, [] => false
  | p :: ps, c :: cs => p == c && startsWithL ps cs

/-- Substring occurrence on character lists, modelling strings.Contains. -/
def hasSubL : List Char → List Char → Bool
  | [], pat => pat.isEmpty
  | c :: rest, pat => startsWithL pat (c :: rest) || hasSubL rest pat

/-- Substring occurrence, modelling strings.Contains. -/
def hasSub (s pat : String) : Bool := hasSubL s.data pat.data

/-- The tail \d{1,2}(\.\d{1,2})?$ of the version-format regex, by explicit
case analysis on the remaining characters. -/
def vTail : List Char → Bool
  | [a] => isDigitCh a
  | [a, b] => isDigitCh a && isDigitCh b
  | [a, b, c] => isDigitCh a && b == '.' && isDigitCh c
  | [a, b, c, d] =>
      (isDigitCh a && b == '.' && isDigitCh c && isDigitCh d) ||
      (isDigitCh a && isDigitCh b && c == '.' && isDigitCh d)
  | [a, b, c, d, e] => isDigitCh a && isDigitCh b && c == '.' && isDigitCh d && isDigitCh e
  | _ => false

/-- isValidVersion (src/unnamed/part_003 lines 382-386): full-string match of
^[4-9]\.\d{1,2}(\.\d{1,2})?$ . -/
def isValidVersion (s : String) : Bool :=
  match s.data with
  | c :: d :: rest => (52 ≤ c.toNat && c.toNat ≤ 57) && d == '.' && vTail rest
  | _ => false

/-- Expect an exact literal at the head of the input; on success return the
rest of the input. -/
def dropLit : List Char → List Char → Option (List Char)
  | [], s => some s
  | _ :: _, [] => none
  | p :: ps, c :: cs => if c == p then dropLit ps cs else none

/-- Greedy nonempty run of characters satisfying p (regex CLASS+), returning
the run and the rest.  Every use in this file is followed either by nothing
or by a character the class excludes, so the maximal run is the unique RE2
match. -/
def takeRun1 (p : Char → Bool) (s : List Char) : Option (List Char × List Char) :=
  let run := s.takeWhile p
  if run.isEmpty then none else some (run, s.dropWhile p)

/-- Greedy \s+ : at least one Go-whitespace character, returning the rest. -/
def dropSpaces1 (s : List Char) : Option (List Char) :=
  match s with
  | [] => none
  | c :: _ => if isGoSpace c then some (s.dropWhile isGoSpace) else none

/-- A single quote character, either double (34) or single (39), the regex
alternation ["'] of the generator-meta patterns. -/
def dropQuote (s : List Char) : Option (List Char) :=
  match s with
  | [] => none
  | c :: rest => if c.toNat == 34 || c.toNat == 39 then some rest else none

/-- One attempt, at the current position, of the generator-meta regex
<meta\s+name=["']generator["']\s+content=["']NAME\s+([0-9.]+)["'] of
src/unnamed/part_003 (lines 420 and 449), parameterised by the platform NAME
("WordPress" or "Elementor").  Returns the captured version. -/
def tryMetaAt (name : List Char) (s : List Char) : Option (List Char) :=
  (dropLit "<meta".data s).bind fun s1 =>
  (dropSpaces1 s1).bind fun s2 =>
  (dropLit "name=".data s2).bind fun s3 =>
  (dropQuote s3).bind fun s4 =>
  (dropLit "generator".data s4).bind fun s5 =>
  (dropQuote s5).bind fun s6 =>
  (dropSpaces1 s6).bind fun s7 =>
  (dropLit "content=".data s7).bind fun s8 =>
  (dropQuote s8).bind fun s9 =>
  (dropLit name s9).bind fun s10 =>
  (dropSpaces1 s10).bind fun s11 =>
  (takeRun1 isVerChar s11).bind fun cap =>
  (dropQuote cap.2).map fun _ => cap.1

/-- One attempt, at the current position, of a pattern LITERAL([0-9.]+) —
the shape of all ver= version regexes of the repository. -/
def tryLitVerAt (lit : List Char) (s : List Char) : Option (List Char) :=
  (dropLit lit s).bind fun s1 => (takeRun1 isVerChar s1).map fun cap => cap.1

/-- One attempt, at the current position, of a pattern LITERAL([^/]+) — the
shape of the theme and plugin path regexes.  Returns the captured directory
name and the rest of the input after the capture. -/
def tryCapSegAt (lit : List Char) (s : List Char) : Option (List Char × List Char) :=
  (dropLit lit s).bind fun s1 => takeRun1 (fun c => ¬ c.toNat == 47) s1

/-- Leftmost match: try the matcher at every position, earliest success wins.
Models FindStringSubmatch of Go regexp (none of the patterns used here can
match the empty string, so the final empty position needs no attempt). -/
def findFirstL (try1 : List Char → Option (List Char)) : List Char → Option (List Char)
  | [] => none
  | c :: rest =>
    match try1 (c :: rest) with
    | some cap => some cap
    | none => findFirstL try1 rest

/-- All successive non-overlapping matches, leftmost first, each search
resuming after the previous capture.  Models FindAllStringSubmatch of Go
regexp; the fuel argument (initialised to the input length) dominates the
number of positions inspected, since every step advances at least one
character. -/
def findAllAux (lit : List Char) : Nat → List Char → List (List Char)
  | 0, _ => []
  | _ + 1, [] => []
  | fuel + 1, c :: rest =>
    match tryCapSegAt lit (c :: rest) with
    | some (cap, after) => cap :: findAllAux lit fuel after
    | none => findAllAux lit fuel rest

/-- All captures of LITERAL([^/]+) in a string, in order of occurrence. -/
def findAllCaps (lit : List Char) (s : List Char) : List (List Char) :=
  findAllAux lit s.length s

/-- Capture of the WordPress generator-meta regex, leftmost occurrence
(src/unnamed/part_003 lines 420-421). -/
def metaFind (body : String) : Option String :=
  (findFirstL (tryMetaAt "WordPress".data) body.data).map String.mk

/-- Capture of /wp-includes/js/wp-embed\.min\.js\?ver=([0-9.]+), leftmost
occurrence (src/unnamed/part_003 lines 427-428). -/
def embedFind (body : String) : Option String :=
  (findFirstL (tryLitVerAt "/wp-includes/js/wp-embed.min.js?ver=".data) body.data).map String.mk

/-- Capture of wp-emoji-release\.min\.js\?ver=([0-9.]+), leftmost occurrence
(src/unnamed/part_003 lines 434-435). -/
def emojiFind (body : String) : Option String :=
  (findFirstL (tryLitVerAt "wp-emoji-release.min.js?ver=".data) body.data).map String.mk

/-- Capture of \?ver=([0-9.]+), leftmost occurrence (src/unnamed/part_003
lines 442-443). -/
def verFind (body : String) : Option String :=
  (findFirstL (tryLitVerAt "?ver=".data) body.data).map String.mk

/-- Capture of the Elementor generator-meta regex, leftmost occurrence
(src/unnamed/part_003 lines 449-450). -/
def elementorFind (body : String) : Option String :=
  (findFirstL (tryMetaAt "Elementor".data) body.data).map String.mk

/-- Suffix after the first > character, if any. -/
def splitAtGt : List Char → Option (List Char)
  | [] => none
  | c :: rest => if c.toNat == 62 then some rest else splitAtGt rest

/-- stripTags (src/unnamed/part_003 lines 370-373): delete every match of
<[^>]*>.  A match starts at a position iff it holds < and some later >
exists; the fuel argument (initialised to the input length) dominates the
number of positions inspected, since every step advances at least one
character. -/
def stripTagsAux : Nat → List Char → List Char
  | 0, l => l
  | _ + 1, [] => []
  | fuel + 1, c :: rest =>
    if c.toNat == 60 then
      match splitAtGt rest with
      | some after => stripTagsAux fuel after
      | none => c :: stripTagsAux fuel rest
    else c :: stripTagsAux fuel rest

/-- stripTags applied to a string. -/
def stripTags (s : String) : String := String.mk (stripTagsAux s.data.length s.data)

/-- The ASCII part of unicode.IsSpace, as trimmed by strings.TrimSpace. -/
def isTrimSpace (c : Char) : Bool :=
  c.toNat == 9 || c.toNat == 10 || c.toNat == 11 || c.toNat == 12 ||
    c.toNat == 13 || c.toNat == 32

/-- strings.TrimSpace on character lists (ASCII whitespace). -/
def trimSpaceL (l : List Char) : List Char :=
  ((l.dropWhile isTrimSpace).reverse.dropWhile isTrimSpace).reverse

/-- isBlankScreen (src/unnamed/part_003 lines 375-378): the tag-stripped
body trims to the empty string. -/
def isBlankScreen (body : String) : Bool :=
  (trimSpaceL (stripTags body).data).isEmpty

/-- isCloudflare (src/unnamed/part_003 lines 366-368). -/
def isCloudflare (body : String) : Bool := hasSub body "Cloudflare"

/-- Dot-separated parts of a character list (String.splitOn "."). -/
def splitDots : List Char → List (List Char)
  | [] => [[]]
  | c :: rest =>
    if c.toNat == 46 then [] :: splitDots rest
    else
      match splitDots rest with
      | [] => [[c]]
      | p :: ps => (c :: p) :: ps

/-- One hostname label of the domain regex:
[a-zA-Z0-9]([a-zA-Z0-9\-]{0,61}[a-zA-Z0-9])? — nonempty, at most 63
characters, alphanumerics and hyphens only, first and last alphanumeric. -/
def isLabelOK (l : List Char) : Bool :=
  !l.isEmpty && Nat.ble l.length 63 &&
    l.all (fun c => isAlnumCh c || c.toNat == 45) &&
    isAlnumCh (l.headD ' ') && isAlnumCh (l.getLastD ' ')

/-- isValidDomain (src/unnamed/part_003 lines 330-334): full match of
^([a-zA-Z0-9]([a-zA-Z0-9\-]{0,61}[a-zA-Z0-9])?\.)+[a-zA-Z]{2,}$ .  No
character class of the regex admits a dot, so a string is in its language
iff its dot-separated parts are: at least one valid leading label, then a
final alphabetic part of length at least two. -/
def isValidDomain (domain : String) : Bool :=
  let parts := splitDots domain.data
  Nat.ble 2 parts.length && parts.dropLast.all isLabelOK &&
    (let tld := parts.getLastD []
     Nat.ble 2 tld.length && tld.all isAlphaCh)

/-- strings.Join(evidences, ", "). -/
def joinCommaSep : List String → String
  | [] => ""
  | [x] => x
  | x :: y :: rest => x ++ ", " ++ joinCommaSep (y :: rest)

/-- The marker scan of detectWordPress (src/unnamed/part_003 lines 388-412):
each of the five markers found in the lower-cased body appends its name, in
program order. -/
def wpEvidences (body : String) : List String :=
  let lower := lowerStr body
  (if hasSub lower "wp-content" then ["wp-content"] else []) ++
  (if hasSub lower "wp-includes" then ["wp-includes"] else []) ++
  (if hasSub lower "wp-json" then ["wp-json"] else []) ++
  (if hasSub lower "wp-emoji" then ["wp-emoji"] else []) ++
  (if hasSub lower "elementor" then ["elementor"] else [])

/-- Version cascade of detectWordPress, step 5: Elementor generator meta
tag (src/unnamed/part_003 lines 448-453).  Each step returns the captured
version and the prefix of the evidence string of its return statement. -/
def pickVersion5 (body : String) : Option (String × String) :=
  match elementorFind body with
  | some v => if isValidVersion v then some (v, "elementor meta generator: ") else none
  | none => none

/-- Version cascade, step 4: any asset with a ver= parameter (lines
440-446). -/
def pickVersion4 (body : String) : Option (String × String) :=
  match verFind body with
  | some v => if isValidVersion v then some (v, "asset version: ") else pickVersion5 body
  | none => pickVersion5 body

/-- Version cascade, step 3: wp-emoji-release.min.js (lines 433-438). -/
def pickVersion3 (body : String) : Option (String × String) :=
  match emojiFind body with
  | some v => if isValidVersion v then some (v, "wp-emoji-release.min.js: ") else pickVersion4 body
  | none => pickVersion4 body

/-- Version cascade, step 2: wp-embed.min.js (lines 426-431). -/
def pickVersion2 (body : String) : Option (String × String) :=
  match embedFind body with
  | some v => if isValidVersion v then some (v, "wp-embed.min.js: ") else pickVersion3 body
  | none => pickVersion3 body

/-- Version cascade, step 1 (top): WordPress generator meta tag (lines
419-424). -/
def pickVersion (body : String) : Option (String × String) :=
  match metaFind body with
  | some v => if isValidVersion v then some (v, "meta generator: ") else pickVersion2 body
  | none => pickVersion2 body

/-- detectWordPress (src/unnamed/part_003 lines 388-457), returning
(isWordPress, version, evidences string). -/
def detectWordPress (body : String) : Bool × String × String :=
  let evidences := wpEvidences body
  if evidences.isEmpty then (false, "", "")
  else
    match pickVersion body with
    | some vt => (true, vt.1, vt.2 ++ joinCommaSep evidences)
    | none => (true, "Unknown", joinCommaSep evidences)

/-- The outcome of one makeRequest call: final URL, status code, body and
error (none on success; Go returns zero values "" and 0 alongside a non-nil
error). -/
structure FetchOut where
  finalURL : String
  status : Nat
  body : String
  err : Option String
deriving DecidableEq

/-- The Result record of src/unnamed/part_003 (lines 179-189).  The
ResponseTime field (wall-clock latency) is not modelled. -/
structure Result where
  domain : String
  domainIsValid : Bool
  domainHasDNSRecord : Bool
  finalURL : String
  isWordPress : Bool
  wordPressVersion : String
  wordPressEvidences : String
  errors : List String
deriving DecidableEq

/-- The error-list contribution of one fetch outcome: err.Error() when the
error is non-nil (src/unnamed/part_003 lines 286-288 and 297-299). -/
def errHead (f : FetchOut) : List String :=
  match f.err with
  | some e => [e]
  | none => []

/-- The x509 test of the SSL-retry guard (src/unnamed/part_003 line 291). -/
def x509Err : Option String → Bool
  | some e => hasSub e "x509"
  | none => false

/-- Lines 302-327 of checkDomain (src/unnamed/part_003): the straight-line
tail after the fetches — status-code error, Cloudflare note, blank-screen
check, classification, and the final record. -/
def finishCheck (domain : String) (f : FetchOut) (errs : List String) : Result :=
  let errs1 := errs ++
    (if f.status == 200 then [] else
      ["status code " ++ Nat.repr f.status] ++
      (if f.status == 403 && isCloudflare f.body then ["blocked by Cloudflare"] else []))
  let errs2 := errs1 ++ (if isBlankScreen f.body then ["blank screen"] else [])
  let d := detectWordPress f.body
  { domain := domain, domainIsValid := true, domainHasDNSRecord := true,
    finalURL := f.finalURL, isWordPress := d.1,
    wordPressVersion := if d.1 then d.2.1 else "",
    wordPressEvidences := if d.1 then d.2.2 else "",
    errors := errs2 }

/-- checkDomain (src/unnamed/part_003 lines 252-328).  The network is
abstracted: dnsOK is the outcome of net.LookupHost, and fetch gives the
outcome of makeRequest for each value of its ignoreSSL argument.  Besides
the Result, the ignoreSSL arguments of the makeRequest calls actually
issued are returned, in order. -/
def checkDomainGo (domain : String) (dnsOK : Bool) (fetch : Bool → FetchOut) :
    Result × List Bool :=
  if !isValidDomain domain then
    ({ domain := domain, domainIsValid := false, domainHasDNSRecord := false,
       finalURL := "", isWordPress := false, wordPressVersion := "",
       wordPressEvidences := "", errors := ["invalid domain structure"] }, [])
  else if !dnsOK then
    ({ domain := domain, domainIsValid := true, domainHasDNSRecord := false,
       finalURL := "", isWordPress := false, wordPressVersion := "",
       wordPressEvidences := "", errors := ["domain not registered"] }, [])
  else
    let f0 := fetch false
    if x509Err f0.err then
      let f1 := fetch true
      (finishCheck domain f1 (errHead f0 ++ ["SSL error"] ++ errHead f1), [false, true])
    else
      (finishCheck domain f0 (errHead f0), [false])

/-- A web server, for modelling redirect behaviour: maps a URL to
(status code, headers, body), or none when the connection fails. -/
def ServerM : Type := String → Option (Nat × List (String × String) × String)

/-- First value of a response header, by exact (canonical) name — the map
access headers["Location"] of the Go sources. -/
def headerGet (hdrs : List (String × String)) (name : String) : Option String :=
  (hdrs.find? (fun p => p.1 == name)).map (fun p => p.2)

/-- The statuses Go's net/http client follows by default. -/
def isRedirectStatus (st : Nat) : Bool :=
  st == 301 || st == 302 || st == 303 || st == 307 || st == 308

/-- The GET of net/http's default client as configured by makeRequest
(src/unnamed/part_003 lines 341-364): makeRequest installs no CheckRedirect
policy, so the client follows up to 10 redirects (the documented default),
failing beyond that; a redirect status without a Location header is
returned as-is.  Returns (final URL, status, headers, body); Location
values are taken as absolute URLs. -/
def clientGetFollow (server : ServerM) :
    Nat → String → Option (String × Nat × List (String × String) × String)
  | fuel, url =>
    match server url with
    | none => none
    | some (st, hdrs, body) =>
      if isRedirectStatus st then
        match headerGet hdrs "Location", fuel with
        | some loc, f + 1 => clientGetFollow server f loc
        | some _, 0 => none
        | none, _ => some (url, st, hdrs, body)
      else some (url, st, hdrs, body)

/-- makeRequest (src/unnamed/part_003 lines 341-364) with ignoreSSL = false,
composed with the default client's redirect policy: (finalURL, statusCode,
body) on success, none on error. -/
def makeRequestGo (server : ServerM) (domain : String) : Option (String × Nat × String) :=
  (clientGetFollow server 10 ("https://" ++ domain)).map fun r => (r.1, r.2.1, r.2.2.2)

/-- A proxy descriptor (WIP-with-proxies main.go lines 17-24). -/
structure Proxy where
  host : String
  port : String
  username : String
  password : String
  ptype : String
  active : Bool
deriving DecidableEq

/-- WordPressInfo (WIP-with-proxies main.go lines 130-134). -/
structure WPInfo where
  version : String
  theme : String
  plugins : List String
deriving DecidableEq

/-- DomainResult (WIP-with-proxies main.go lines 26-37). -/
structure DomainResultW where
  domain : String
  statusCode : Nat
  isWordPress : Bool
  wpVersion : String
  wpTheme : String
  wpPlugins : List String
  headers : List (String × String)
  error : Option String
  proxyUsed : Option String
  redirectLocation : Option String
deriving DecidableEq

/-- Expect a pattern at the head of the input, where the pattern character
. matches any input character (the semantics of an unescaped regex dot) and
every other character matches itself. -/
def dropPat : List Char → List Char → Option (List Char)
  | [], s => some s
  | _ :: _, [] => none
  | p :: ps, c :: cs => if p == '.' || c == p then dropPat ps cs else none

/-- One attempt of PATTERN([0-9.]+) where PATTERN may hold unescaped dots. -/
def tryPatVerAt (pat : List Char) (s : List Char) : Option (List Char) :=
  (dropPat pat s).bind fun s1 => (takeRun1 isVerChar s1).map fun cap => cap.1

/-- Capture of <meta name="generator" content="WordPress ([0-9.]+), leftmost
occurrence (WIP-with-proxies main.go line 161). -/
def metaFindW (body : String) : Option String :=
  (findFirstL (tryLitVerAt "<meta name=\"generator\" content=\"WordPress ".data)
    body.data).map String.mk

/-- Capture of ver=([0-9.]+), leftmost occurrence (WIP-with-proxies main.go
line 162). -/
def verFindW (body : String) : Option String :=
  (findFirstL (tryLitVerAt "ver=".data) body.data).map String.mk

/-- Capture of wp-includes/js/wp-emoji-release.min.js\?ver=([0-9.]+),
leftmost occurrence (WIP-with-proxies main.go line 163; the dots are
unescaped in the source pattern). -/
def emojiFindW (body : String) : Option String :=
  (findFirstL (tryPatVerAt "wp-includes/js/wp-emoji-release.min.js?ver=".data)
    body.data).map String.mk

/-- Capture of /wp-content/themes/([^/]+), leftmost occurrence
(WIP-with-proxies main.go line 175; php-version main.php line 220). -/
def themeFind (body : String) : Option String :=
  (findFirstL (fun s => (tryCapSegAt "/wp-content/themes/".data s).map fun r => r.1)
    body.data).map String.mk

/-- All captures of /wp-content/plugins/([^/]+), in occurrence order
(WIP-with-proxies main.go lines 182-183; php-version main.php line 226). -/
def pluginFindAll (body : String) : List String :=
  (findAllCaps "/wp-content/plugins/".data body.data).map String.mk

/-- Deduplication keeping the first occurrence of each name, with the names
already kept accumulated in seen. -/
def dedupFirstAux (seen : List String) : List String → List String
  | [] => []
  | x :: xs =>
    if seen.contains x then dedupFirstAux seen xs
    else x :: dedupFirstAux (x :: seen) xs

/-- Deduplication keeping the first occurrence of each name: PHP
array_unique (php-version main.php line 229).  The Go prototype collects
the same set through a map whose iteration order Go leaves unspecified; the
PHP prototype fixes the deterministic order embedded here. -/
def dedupFirst (l : List String) : List String := dedupFirstAux [] l

/-- The wpIndicators list (WIP-with-proxies main.go lines 140-145). -/
def wpIndicators : List String :=
  ["/wp-content/", "/wp-includes/", "wp-login.php", "wp-admin"]

/-- The ordered version patterns of the WIP prototype (main.go lines
160-164): generator meta tag, bare ver= parameter, emoji script. -/
def versionCandidatesW (body : String) : List (Option String) :=
  [metaFindW body, verFindW body, emojiFindW body]

/-- First pattern that matched at all, modelling the break of the loop of
main.go lines 166-172 (no format check in this prototype). -/
def firstSomeVersion : List (Option String) → Option String
  | [] => none
  | some v :: _ => some v
  | none :: rest => firstSomeVersion rest

/-- detectWordPress of the WIP prototype (WIP-with-proxies main.go lines
136-197); plugin order per the PHP prototype (see dedupFirst). -/
def detectWordPressW (body : String) : Bool × WPInfo :=
  if wpIndicators.any (fun ind => hasSub body ind) then
    (true,
      { version := (firstSomeVersion (versionCandidatesW body)).getD "",
        theme := (themeFind body).getD "",
        plugins := dedupFirst (pluginFindAll body) })
  else (false, { version := "", theme := "", plugins := [] })

/-- processResult (WIP-with-proxies main.go lines 118-128). -/
def processResultW (r : DomainResultW) (body : String) : DomainResultW :=
  let d := detectWordPressW body
  let r1 := { r with isWordPress := d.1 }
  if d.1 then
    { r1 with wpVersion := d.2.version, wpTheme := d.2.theme, wpPlugins := d.2.plugins }
  else r1

/-- A web server returning either an error string (the transport error of
client.Do) or (status, headers, body). -/
def ServerE : Type := String → Except String (Nat × List (String × String) × String)

/-- checkDomain of the WIP prototype (main.go lines 208-272) without a
proxy.  Its client sets CheckRedirect to http.ErrUseLastResponse, so
exactly one request is issued and any 3xx response is returned unchanged.
Returns (status, body, headers) like the Go function. -/
def checkDomainW (server : ServerE) (url : String) :
    Except String (Nat × String × List (String × String)) :=
  match server url with
  | .error e => .error e
  | .ok r => .ok (r.1, r.2.2, r.2.1)

/-- The redirect note of main (WIP-with-proxies main.go lines 66-68 and
102-104): when the response carries a Location header and the status is 301
or 302, record the redirect target. -/
def recordRedirect (r : DomainResultW) (st : Nat) (hdrs : List (String × String)) :
    DomainResultW :=
  match headerGet hdrs "Location" with
  | some loc =>
    if st == 301 || st == 302 then { r with redirectLocation := some loc } else r
  | none => r

/-- The proxy retry loop of main (WIP-with-proxies main.go lines 85-110) and
its fall-through (lines 112-115).  pfetch abstracts checkDomain through one
proxy: none is a transport error (which in the program also deactivates the
proxy on disk, see markProxyAsInactiveW), some a completed response
(status, body, headers) of any status. -/
def proxyLoopW (pfetch : Proxy → Option (Nat × String × List (String × String))) :
    List Proxy → DomainResultW → DomainResultW
  | [], r =>
    { r with statusCode := 403, error := some "All proxies failed or returned 403" }
  | p :: rest, r =>
    if !p.active then proxyLoopW pfetch rest r
    else
      match pfetch p with
      | none => proxyLoopW pfetch rest r
      | some (st, body, hdrs) =>
        let r1 := { r with statusCode := st, headers := hdrs,
                           proxyUsed := some (p.host ++ ":" ++ p.port) }
        processResultW (recordRedirect r1 st hdrs) body

/-- The scheme normalisation of main (WIP-with-proxies main.go lines
46-48). -/
def normalizeDomain (raw : String) : String :=
  if startsWithL "http://".data raw.data || startsWithL "https://".data raw.data then raw
  else "https://" ++ raw

/-- main of the WIP prototype after argument handling (main.go lines
50-116): direct attempt, redirect note, 403-triggered proxy failover,
terminal fall-through.  proxySrc abstracts loadProxies("proxies.csv"). -/
def mainW (server : ServerE) (proxySrc : Except String (List Proxy))
    (pfetch : Proxy → Option (Nat × String × List (String × String)))
    (rawDomain : String) : DomainResultW :=
  let domain := normalizeDomain rawDomain
  let r0 : DomainResultW :=
    { domain := domain, statusCode := 0, isWordPress := false, wpVersion := "",
      wpTheme := "", wpPlugins := [], headers := [], error := none,
      proxyUsed := none, redirectLocation := none }
  match checkDomainW server domain with
  | .error e => { r0 with error := some e }
  | .ok (st, body, hdrs) =>
    let r1 := recordRedirect { r0 with statusCode := st, headers := hdrs } st hdrs
    if !(st == 403) then processResultW r1 body
    else
      match proxySrc with
      | .error e => { r1 with error := some ("Failed to load proxies: " ++ e) }
      | .ok proxies => proxyLoopW pfetch proxies r1

/-- strconv.ParseBool with its error ignored (WIP main.go line 303): the
accepted true spellings yield true, everything else — including parse
errors — leaves the zero value false. -/
def parseBoolGo (s : String) : Bool :=
  (["1", "t", "T", "TRUE", "true", "True"] : List String).contains s

/-- One CSV record to a proxy (WIP main.go lines 298-312): records with
fewer than six fields are skipped by the loader. -/
def parseProxyRow (r : List String) : Option Proxy :=
  if Nat.ble 6 r.length then
    some { host := r.getD 0 "", port := r.getD 1 "", username := r.getD 2 "",
           password := r.getD 3 "", ptype := r.getD 4 "",
           active := parseBoolGo (r.getD 5 "") }
  else none

/-- The uniform-record-length rule of encoding/csv: with the default
FieldsPerRecord = 0, the reader takes the field count of the first record
read and rejects any later record with a different count
(csv.ErrFieldCount). -/
def csvUniform : List (List String) → Bool
  | [] => true
  | r :: rest => rest.all (fun x => x.length == r.length)

/-- loadProxies (WIP main.go lines 274-316) on the parsed records of the
file: an empty file fails at the header read; a field-count violation fails
a row read; otherwise the header is skipped and every well-formed row
yields a proxy. -/
def loadProxiesW (rows : List (List String)) : Except String (List Proxy) :=
  match rows with
  | [] => .error "EOF"
  | header :: data =>
    if csvUniform (header :: data) then .ok (data.filterMap parseProxyRow)
    else .error "wrong number of fields"

/-- records[index+1][5] = "false" on one record.  List.set is a no-op out
of range, where Go would panic; the theorems below reach it only in
range. -/
def setRow5 (r : List String) : List String := r.set 5 "false"

/-- markProxyAsInactive (WIP main.go lines 318-356) on the parsed records:
re-read the file, rewrite field 5 of record index+1 (guarded by the length
test of line 338), write everything back.  csv.WriteAll writes the records
in order, so the store is modelled record-for-record. -/
def markProxyAsInactiveW (rows : List (List String)) (index : Nat) : List (List String) :=
  if Nat.blt (index + 1) rows.length then
    rows.set (index + 1) (setRow5 (rows.getD (index + 1) []))
  else rows

/-- A snapshot of processDomainsConcurrently (src/unnamed/part_003 lines
223-250): domains the main loop has not yet dispatched, domains whose
goroutine currently holds a semaphore slot, and the results collected from
the result channel. -/
structure BatchState (α : Type) where
  toSpawn : List String
  running : List String
  results : List α
deriving DecidableEq

/-- Interleaving semantics of processDomainsConcurrently.  spawn: the main
loop sends on the buffered channel sem of capacity cap — possible exactly
while fewer than cap slots are held — and starts the goroutine for the next
domain.  finish: any running goroutine completes checkDomain (denoted f),
sends its result on resultChan (whose capacity is the batch size, so the
send never blocks) and releases its slot.  No other transition touches the
shared state. -/
inductive BatchStep {α : Type} (f : String → α) (cap : Nat) :
    BatchState α → BatchState α → Prop
  | spawn (d : String) (ds run res) : run.length < cap →
      BatchStep f cap ⟨d :: ds, run, res⟩ ⟨ds, run ++ [d], res⟩
  | finish (ds run1 run2 d res) :
      BatchStep f cap ⟨ds, run1 ++ d :: run2, res⟩ ⟨ds, run1 ++ run2, res ++ [f d]⟩

/-- Reachability under the scheduler. -/
def BatchReach {α : Type} (f : String → α) (cap : Nat) :
    BatchState α → BatchState α → Prop :=
  Relation.ReflTransGen (BatchStep f cap)

/-- The state at the start of processDomainsConcurrently. -/
def initBatch {α : Type} (domains : List String) : BatchState α :=
  ⟨domains, [], []⟩

/-- Spec 4.3: ordered first-match-wins version extraction — the first
pattern whose candidate passes the format check supplies the version. -/
def specOrderedFirstValid : List (Option String) → Option String
  | [] => none
  | none :: rest => specOrderedFirstValid rest
  | some v :: rest => if isValidVersion v then some v else specOrderedFirstValid rest

/-- The candidates of the five ordered patterns of detectWordPress
(src/unnamed/part_003), in program order. -/
def versionCandidates (body : String) : List (Option String) :=
  [metaFind body, embedFind body, emojiFind body, verFind body, elementorFind body]

/-- A further version component of the spec format: one or two digits (a
numeric value 0-99). -/
def numComp (l : List Char) : Prop :=
  l ≠ [] ∧ l.length ≤ 2 ∧ ∀ c ∈ l, isDigitCh c = true

/-- The version format stated by the spec: a major digit in the restricted
band 4-9, a dot, then one or two further numeric components. -/
def specAcceptableVersion (s : String) : Prop :=
  ∃ c m rest, s.data = c :: '.' :: (m ++ rest) ∧
    c ∈ (['4', '5', '6', '7', '8', '9'] : List Char) ∧ numComp m ∧
    (rest = [] ∨ ∃ p, rest = '.' :: p ∧ numComp p)

/-- A two-URL server: the first URL answers 301 with a Location header, the
second answers 200. -/
def exRedirectServer : ServerM := fun url =>
  if url == "https://redirector.example" then
    some (301, [("Location", "https://target.example")], "")
  else if url == "https://target.example" then
    some (200, [], "<p>hi</p>")
  else none

/-! ## Helper lemmas -/

/-- Step 5 of the cascade agrees with the spec's first-valid rule on the
last candidate. -/
theorem pickVersion5_fst (body : String) :
    (pickVersion5 body).map (fun p => p.1) = specOrderedFirstValid [elementorFind body] := by
  unfold pickVersion5
  cases elementorFind body with
  | none => rfl
  | some v =>
    by_cases h : isValidVersion v = true
    · simp [specOrderedFirstValid, h]
    · simp only [Bool.not_eq_true] at h
      simp [specOrderedFirstValid, h]

/-- Step 4 of the cascade agrees with the spec's first-valid rule on the
last two candidates. -/
theorem pickVersion4_fst (body : String) :
    (pickVersion4 body).map (fun p => p.1) =
      specOrderedFirstValid [verFind body, elementorFind body] := by
  unfold pickVersion4
  cases verFind body with
  | none => simpa [specOrderedFirstValid] using pickVersion5_fst body
  | some v =>
    by_cases h : isValidVersion v = true
    · simp [specOrderedFirstValid, h]
    · simp only [Bool.not_eq_true] at h
      simpa [specOrderedFirstValid, h] using pickVersion5_fst body

/-- Step 3 of the cascade agrees with the spec's first-valid rule on the
last three candidates. -/
theorem pickVersion3_fst (body : String) :
    (pickVersion3 body).map (fun p => p.1) =
      specOrderedFirstValid [emojiFind body, verFind body, elementorFind body] := by
  unfold pickVersion3
  cases emojiFind body with
  | none => simpa [specOrderedFirstValid] using pickVersion4_fst body
  | some v =>
    by_cases h : isValidVersion v = true
    · simp [specOrderedFirstValid, h]
    · simp only [Bool.not_eq_true] at h
      simpa [specOrderedFirstValid, h] using pickVersion4_fst body

/-- Step 2 of the cascade agrees with the spec's first-valid rule on the
last four candidates. -/
theorem pickVersion2_fst (body : String) :
    (pickVersion2 body).map (fun p => p.1) =
      specOrderedFirstValid [embedFind body, emojiFind body, verFind body, elementorFind body] := by
  unfold pickVersion2
  cases embedFind body with
  | none => simpa [specOrderedFirstValid] using pickVersion3_fst body
  | some v =>
    by_cases h : isValidVersion v = true
    · simp [specOrderedFirstValid, h]
    · simp only [Bool.not_eq_true] at h
      simpa [specOrderedFirstValid, h] using pickVersion3_fst body

/-- The full version cascade of detectWordPress returns, as its version,
exactly the spec's ordered first-valid candidate. -/
theorem pickVersion_fst (body : String) :
    (pickVersion body).map (fun p => p.1) =
      specOrderedFirstValid (versionCandidates body) := by
  unfold pickVersion versionCandidates
  cases metaFind body with
  | none => simpa [specOrderedFirstValid] using pickVersion2_fst body
  | some v =>
    by_cases h : isValidVersion v = true
    · simp [specOrderedFirstValid, h]
    · simp only [Bool.not_eq_true] at h
      simpa [specOrderedFirstValid, h] using pickVersion2_fst body

/-- With a marker matched, the reported version is the cascade's version,
defaulting to the "Unknown" sentinel. -/
theorem detect_version_eq (body : String) (h : wpEvidences body ≠ []) :
    (detectWordPress body).2.1 = ((pickVersion body).map (fun p => p.1)).getD "Unknown" := by
  unfold detectWordPress
  rw [if_neg (by simpa [List.isEmpty_iff] using h)]
  cases pickVersion body <;> rfl

/-! ## Claim C1 -/

/-- C1 counterexample.  A body whose first generator-meta candidate fails
the format validation: the body contains a valid generator meta tag
announcing 5.8 (an acceptable version), yet the classifier of
src/unnamed/part_003 reports the competing ver= candidate 6.1, because the
leftmost generator-meta match (2.0) fails validation and the classifier
then abandons the generator-meta pattern entirely.  The choice of a
version does not imply it passed validation over all competing candidates
of earlier patterns present in the body, refuting the claim as stated. -/
theorem claim1_counterexample :
    hasSub
      "wp-content <meta name=\"generator\" content=\"WordPress 2.0\"> <meta name=\"generator\" content=\"WordPress 5.8\"> a?ver=6.1 "
      "<meta name=\"generator\" content=\"WordPress 5.8\"" = true ∧
    isValidVersion "5.8" = true ∧
    isValidVersion "2.0" = false ∧
    detectWordPress
      "wp-content <meta name=\"generator\" content=\"WordPress 2.0\"> <meta name=\"generator\" content=\"WordPress 5.8\"> a?ver=6.1 " =
      (true, "6.1", "asset version: wp-content") := by
  refine ⟨by decide, by decide, by decide, by decide⟩

/-- C1 (amended).  In the classifier of src/unnamed/part_003, once a marker
matched, the reported version is the first candidate of the ordered pattern
list that passes format validation (the "Unknown" sentinel when none
does); in particular, whenever the generator-meta pattern's (leftmost)
candidate passes validation, that version is chosen, taking precedence over
every competing ver= candidate.  A later valid generator-meta tag does not
override an earlier invalid one (see the counterexample), and the
WIP-with-proxies prototype applies no format validation at all. -/
theorem claim1_theorem (body : String) (h : wpEvidences body ≠ []) :
    (detectWordPress body).2.1 =
      (specOrderedFirstValid (versionCandidates body)).getD "Unknown" ∧
    (∀ v, metaFind body = some v → isValidVersion v = true →
      detectWordPress body =
        (true, v, "meta generator: " ++ joinCommaSep (wpEvidences body))) := by
  constructor
  · rw [detect_version_eq body h, pickVersion_fst]
  · intro v hm hv
    unfold detectWordPress
    rw [if_neg (by simpa [List.isEmpty_iff] using h)]
    unfold pickVersion
    rw [hm]
    simp [hv]

/-- Witness for the amended C1 at a concrete body. -/
theorem claim1_witness :
    wpEvidences "wp-content a?ver=6.1" ≠ [] ∧
    (detectWordPress "wp-content a?ver=6.1").2.1 =
      (specOrderedFirstValid (versionCandidates "wp-content a?ver=6.1")).getD "Unknown" ∧
    detectWordPress "wp-content a?ver=6.1" = (true, "6.1", "asset version: wp-content") := by
  have h : wpEvidences "wp-content a?ver=6.1" ≠ [] := by decide
  have hall := claim1_theorem "wp-content a?ver=6.1" h
  exact ⟨h, hall.1, by decide⟩

/-! ## Claim C2 -/

/-- C2.  (i) With none of the five markers in the (lower-cased) body, the
part_003 classifier reports not-detected with empty version and evidence.
(ii) With none of the four indicators in the body, the WIP classifier
reports not-detected with empty version, theme and plugin fields.
(iii) Every Result produced by checkDomain with isWordPress false carries
empty version and evidence fields. -/
theorem claim2_theorem :
    (∀ body : String,
      hasSub (lowerStr body) "wp-content" = false →
      hasSub (lowerStr body) "wp-includes" = false →
      hasSub (lowerStr body) "wp-json" = false →
      hasSub (lowerStr body) "wp-emoji" = false →
      hasSub (lowerStr body) "elementor" = false →
      detectWordPress body = (false, "", "")) ∧
    (∀ body : String,
      hasSub body "/wp-content/" = false →
      hasSub body "/wp-includes/" = false →
      hasSub body "wp-login.php" = false →
      hasSub body "wp-admin" = false →
      detectWordPressW body = (false, ⟨"", "", []⟩)) ∧
    (∀ (domain : String) (dnsOK : Bool) (fetch : Bool → FetchOut),
      ((checkDomainGo domain dnsOK fetch).1).isWordPress = false →
      ((checkDomainGo domain dnsOK fetch).1).wordPressVersion = "" ∧
      ((checkDomainGo domain dnsOK fetch).1).wordPressEvidences = "") := by
  refine ⟨?_, ?_, ?_⟩
  · intro body h1 h2 h3 h4 h5
    unfold detectWordPress wpEvidences
    simp [h1, h2, h3, h4, h5]
  · intro body h1 h2 h3 h4
    unfold detectWordPressW wpIndicators
    simp [List.any_cons, h1, h2, h3, h4]
  · intro domain dnsOK fetch
    unfold checkDomainGo
    cases hv : isValidDomain domain with
    | false => simp
    | true =>
      cases hd : dnsOK with
      | false => simp
      | true =>
        cases hx : x509Err (fetch false).err with
        | true =>
          simp only [hx, Bool.not_true, Bool.false_eq_true, if_false, if_true]
          unfold finishCheck
          intro h
          simp only at h
          simp [h]
        | false =>
          simp only [hx, Bool.not_true, Bool.false_eq_true, if_false, if_true]
          unfold finishCheck
          intro h
          simp only at h
          simp [h]

/-- Witness for C2 at concrete inputs. -/
theorem claim2_witness :
    detectWordPress "hello" = (false, "", "") ∧
    detectWordPressW "hello" = (false, ⟨"", "", []⟩) ∧
    ((checkDomainGo "example.com" true
        (fun _ => ⟨"https://example.com", 200, "hello", none⟩)).1).wordPressVersion = "" := by
  refine ⟨claim2_theorem.1 "hello" (by decide) (by decide) (by decide) (by decide) (by decide),
    claim2_theorem.2.1 "hello" (by decide) (by decide) (by decide) (by decide),
    (claim2_theorem.2.2 "example.com" true
      (fun _ => ⟨"https://example.com", 200, "hello", none⟩) (by decide)).1⟩

/-! ## Claim C3 -/

/-- A one-digit spec component. -/
theorem numComp_one {a : Char} (h : isDigitCh a = true) : numComp [a] := by
  refine ⟨by simp, by simp, ?_⟩
  intro c hc
  simp only [List.mem_singleton] at hc
  subst hc
  exact h

/-- A two-digit spec component. -/
theorem numComp_two {a b : Char} (ha : isDigitCh a = true) (hb : isDigitCh b = true) :
    numComp [a, b] := by
  refine ⟨by simp, by simp, ?_⟩
  intro c hc
  rcases (by simpa using hc : c = a ∨ c = b) with rfl | rfl
  · exact ha
  · exact hb

/-- A spec version component is one digit or two. -/
theorem numComp_cases {m : List Char} (h : numComp m) :
    (∃ a, m = [a] ∧ isDigitCh a = true) ∨
    (∃ a b, m = [a, b] ∧ isDigitCh a = true ∧ isDigitCh b = true) := by
  obtain ⟨hne, hlen, hall⟩ := h
  rcases m with _ | ⟨a, _ | ⟨b, _ | ⟨c, rest⟩⟩⟩
  · exact absurd rfl hne
  · exact Or.inl ⟨a, rfl, hall a (by simp)⟩
  · exact Or.inr ⟨a, b, rfl, hall a (by simp), hall b (by simp)⟩
  · simp only [List.length_cons] at hlen
    omega

/-- The tail matcher accepts exactly one or two further components. -/
theorem vTail_iff (l : List Char) :
    vTail l = true ↔
      ∃ m rest, l = m ++ rest ∧ numComp m ∧
        (rest = [] ∨ ∃ p, rest = '.' :: p ∧ numComp p) := by
  constructor
  · intro h
    rcases l with _ | ⟨a, _ | ⟨b, _ | ⟨c, _ | ⟨d, _ | ⟨e, tail⟩⟩⟩⟩⟩
    · simp [vTail] at h
    · simp only [vTail] at h
      exact ⟨[a], [], by simp, numComp_one h, Or.inl rfl⟩
    · simp only [vTail, Bool.and_eq_true] at h
      exact ⟨[a, b], [], by simp, numComp_two h.1 h.2, Or.inl rfl⟩
    · simp only [vTail, Bool.and_eq_true, beq_iff_eq] at h
      obtain ⟨⟨ha, hb⟩, hc⟩ := h
      subst hb
      exact ⟨[a], '.' :: [c], by simp, numComp_one ha, Or.inr ⟨[c], rfl, numComp_one hc⟩⟩
    · simp only [vTail, Bool.or_eq_true, Bool.and_eq_true, beq_iff_eq] at h
      rcases h with ⟨⟨⟨ha, hb⟩, hc⟩, hd⟩ | ⟨⟨⟨ha, hb⟩, hc⟩, hd⟩
      · subst hb
        exact ⟨[a], '.' :: [c, d], by simp, numComp_one ha,
          Or.inr ⟨[c, d], rfl, numComp_two hc hd⟩⟩
      · subst hc
        exact ⟨[a, b], '.' :: [d], by simp, numComp_two ha hb,
          Or.inr ⟨[d], rfl, numComp_one hd⟩⟩
    · rcases tail with _ | ⟨f, tail2⟩
      · simp only [vTail, Bool.and_eq_true, beq_iff_eq] at h
        obtain ⟨⟨⟨⟨ha, hb⟩, hc⟩, hd⟩, he⟩ := h
        subst hc
        exact ⟨[a, b], '.' :: [d, e], by simp, numComp_two ha hb,
          Or.inr ⟨[d, e], rfl, numComp_two hd he⟩⟩
      · have : vTail (a :: b :: c :: d :: e :: f :: tail2) = false := rfl
        rw [this] at h
        exact absurd h (by simp)
  · rintro ⟨m, rest, rfl, hm, hrest | ⟨p, rfl, hp⟩⟩
    · subst hrest
      rcases numComp_cases hm with ⟨x, rfl, hx⟩ | ⟨x, y, rfl, hx, hy⟩
      · simp [vTail, hx]
      · simp [vTail, hx, hy]
    · rcases numComp_cases hm with ⟨x, rfl, hx⟩ | ⟨x, y, rfl, hx, hy⟩
      · rcases numComp_cases hp with ⟨u, rfl, hu⟩ | ⟨u, v, rfl, hu, hv⟩
        · simp [vTail, hx, hu]
        · simp [vTail, hx, hu, hv]
      · rcases numComp_cases hp with ⟨u, rfl, hu⟩ | ⟨u, v, rfl, hu, hv⟩
        · simp [vTail, hx, hy, hu]
        · simp [vTail, hx, hy, hu, hv]

/-- The leading character class [4-9] coincides with membership of the six
band digits. -/
theorem bandChar_mem (c : Char) :
    (52 ≤ c.toNat && c.toNat ≤ 57) = true ↔
      c ∈ (['4', '5', '6', '7', '8', '9'] : List Char) := by
  constructor
  · intro h
    simp only [Bool.and_eq_true, decide_eq_true_eq] at h
    obtain ⟨h1, h2⟩ := h
    have h52 : c.toNat = 52 ∨ c.toNat = 53 ∨ c.toNat = 54 ∨ c.toNat = 55 ∨
        c.toNat = 56 ∨ c.toNat = 57 := by omega
    have hofn := Char.ofNat_toNat c
    rcases h52 with h0 | h0 | h0 | h0 | h0 | h0 <;> rw [h0] at hofn <;>
      rw [← hofn] <;> decide
  · intro h
    rcases (by simpa using h : c = '4' ∨ c = '5' ∨ c = '6' ∨ c = '7' ∨ c = '8' ∨ c = '9')
      with rfl | rfl | rfl | rfl | rfl | rfl <;> decide

/-- The validator accepts exactly the spec's version format. -/
theorem isValidVersion_iff (s : String) :
    isValidVersion s = true ↔ specAcceptableVersion s := by
  unfold isValidVersion specAcceptableVersion
  cases hs : s.data with
  | nil =>
    constructor
    · intro h
      exact absurd h (by simp)
    · rintro ⟨c2, m, r, heq, -⟩
      simp at heq
  | cons c t =>
    cases t with
    | nil =>
      constructor
      · intro h
        exact absurd h (by simp)
      · rintro ⟨c2, m, r, heq, -⟩
        simp at heq
    | cons d rest =>
      constructor
      · intro h
        simp only [Bool.and_eq_true, beq_iff_eq] at h
        obtain ⟨⟨⟨hb1, hb2⟩, hd⟩, ht⟩ := h
        subst hd
        obtain ⟨m, r, hr, hm, htail⟩ := (vTail_iff rest).mp ht
        refine ⟨c, m, r, by rw [hr], (bandChar_mem c).mp ?_, hm, htail⟩
        rw [Bool.and_eq_true]
        exact ⟨hb1, hb2⟩
      · rintro ⟨c2, m, r, heq, hband, hm, htail⟩
        injection heq with h1 h2
        injection h2 with h3 h4
        subst h1
        subst h3
        subst h4
        have hb := (bandChar_mem c).mpr hband
        have ht := (vTail_iff (m ++ r)).mpr ⟨m, r, rfl, hm, htail⟩
        simp [hb, ht]

/-- C3.  (i) A candidate version is accepted exactly when it is a major
digit in the band 4-9 followed by one or two further numeric components of
one or two digits each (values 0-99).  (ii) A generator-meta candidate that
fails the check is treated as no-match: the version is then determined by
the remaining patterns in order.  (iii) With a marker matched but no
pattern yielding a valid version, the classifier reports detection with
the explicit "Unknown" sentinel. -/
theorem claim3_theorem :
    (∀ s : String, isValidVersion s = true ↔ specAcceptableVersion s) ∧
    (∀ (body : String) (v : String), wpEvidences body ≠ [] →
      metaFind body = some v → isValidVersion v = false →
      (detectWordPress body).2.1 =
        (specOrderedFirstValid
          [embedFind body, emojiFind body, verFind body, elementorFind body]).getD
          "Unknown") ∧
    (∀ body : String, wpEvidences body ≠ [] →
      specOrderedFirstValid (versionCandidates body) = none →
      detectWordPress body = (true, "Unknown", joinCommaSep (wpEvidences body))) := by
  refine ⟨isValidVersion_iff, ?_, ?_⟩
  · intro body v h hm hv
    rw [detect_version_eq body h]
    unfold pickVersion
    rw [hm]
    simp only [hv, Bool.false_eq_true, if_false]
    rw [pickVersion2_fst]
  · intro body h hnone
    rw [← pickVersion_fst] at hnone
    have hp : pickVersion body = none := by
      cases hpv : pickVersion body
      · rfl
      · rw [hpv] at hnone
        exact absurd hnone (by simp)
    unfold detectWordPress
    rw [if_neg (by simpa [List.isEmpty_iff] using h), hp]

/-- Witness for C3 at concrete inputs. -/
theorem claim3_witness :
    (isValidVersion "5.8" = true ↔ specAcceptableVersion "5.8") ∧
    wpEvidences "wp-content a?ver=123" ≠ [] ∧
    specOrderedFirstValid (versionCandidates "wp-content a?ver=123") = none ∧
    detectWordPress "wp-content a?ver=123" = (true, "Unknown", "wp-content") := by
  refine ⟨claim3_theorem.1 "5.8", by decide, by decide, ?_⟩
  have h := claim3_theorem.2.2 "wp-content a?ver=123" (by decide) (by decide)
  exact h.trans (by decide)

/-! ## Claim C4 -/

/-- C4 counterexample.  The fetcher of src/unnamed/part_003 (makeRequest)
configures no redirect policy, so the default client follows redirects:
fetching a domain whose response is a 301 does not surface the 3xx as-is —
the call returns the followed-to 200 response and the target URL, refuting
the claim for this fetcher. -/
theorem claim4_counterexample :
    exRedirectServer "https://redirector.example" =
      some (301, [("Location", "https://target.example")], "") ∧
    makeRequestGo exRedirectServer "redirector.example" =
      some ("https://target.example", 200, "<p>hi</p>") := by
  exact ⟨by decide, by decide⟩

/-- C4 (amended).  The proxy-capable fetcher (checkDomain of
WIP-with-proxies, which sets CheckRedirect to http.ErrUseLastResponse)
never follows redirects: every response, 3xx included, is surfaced to the
caller exactly as the server sent it, and main records the Location target
of a 301/302 response in the result.  The part_003 prototype's fetcher,
by contrast, follows redirects (see the counterexample). -/
theorem claim4_theorem (server : ServerE) (url : String) (st : Nat)
    (hdrs : List (String × String)) (body : String) (r : DomainResultW) (loc : String)
    (hresp : server url = .ok (st, hdrs, body)) :
    checkDomainW server url = .ok (st, body, hdrs) ∧
    (headerGet hdrs "Location" = some loc → st = 301 ∨ st = 302 →
      (recordRedirect r st hdrs).redirectLocation = some loc) := by
  constructor
  · unfold checkDomainW
    rw [hresp]
  · intro hl hst
    unfold recordRedirect
    rw [hl]
    rcases hst with h | h <;> subst h <;> simp

/-- Witness for the amended C4 at a concrete server. -/
theorem claim4_witness :
    checkDomainW (fun _ => .ok (302, [("Location", "https://t.example")], "b"))
        "https://s.example" = .ok (302, "b", [("Location", "https://t.example")]) ∧
    (recordRedirect ⟨"d", 0, false, "", "", [], [], none, none, none⟩ 302
        [("Location", "https://t.example")]).redirectLocation = some "https://t.example" := by
  have h := claim4_theorem (fun _ => .ok (302, [("Location", "https://t.example")], "b"))
    "https://s.example" 302 [("Location", "https://t.example")] "b"
    ⟨"d", 0, false, "", "", [], [], none, none, none⟩ "https://t.example" rfl
  exact ⟨h.1, h.2 rfl (Or.inr rfl)⟩

/-! ## Claim C5 -/

/-- C5.  Once validation and DNS pass, checkDomain issues the insecure
retry exactly when the direct fetch failed with an x509 (TLS-chain) error —
and then exactly once, for the same domain; every other outcome of the
direct fetch (success, or an error that is not a TLS-chain failure) issues
no retry. -/
theorem claim5_theorem (domain : String) (dnsOK : Bool) (fetch : Bool → FetchOut)
    (hv : isValidDomain domain = true) (hd : dnsOK = true) :
    (checkDomainGo domain dnsOK fetch).2 =
      if x509Err (fetch false).err then [false, true] else [false] := by
  unfold checkDomainGo
  subst hd
  simp only [hv, Bool.not_true, Bool.false_eq_true, if_false]
  cases hx : x509Err (fetch false).err <;> simp [hx]

/-- Witness for C5: a direct fetch failing with an x509 error triggers the
single insecure retry. -/
theorem claim5_witness :
    isValidDomain "example.com" = true ∧
    (checkDomainGo "example.com" true
      (fun ssl => if ssl then ⟨"https://example.com", 200, "ok", none⟩
        else ⟨"", 0, "", some "x509: certificate signed by unknown authority"⟩)).2 =
      [false, true] := by
  have h := claim5_theorem "example.com" true
    (fun ssl => if ssl then ⟨"https://example.com", 200, "ok", none⟩
      else ⟨"", 0, "", some "x509: certificate signed by unknown authority"⟩)
    (by decide) rfl
  exact ⟨by decide, h.trans (by decide)⟩

/-! ## Claim C6 -/

/-- A proxy loop over only failing (or inactive) proxies falls through to
the terminal 403 record, leaving every other field of the result alone. -/
theorem proxyLoopW_exhaust (pfetch : Proxy → Option (Nat × String × List (String × String)))
    (proxies : List Proxy) (r : DomainResultW)
    (h : ∀ p ∈ proxies, p.active = true → pfetch p = none) :
    proxyLoopW pfetch proxies r =
      { r with statusCode := 403, error := some "All proxies failed or returned 403" } := by
  induction proxies with
  | nil => rfl
  | cons p rest ih =>
    unfold proxyLoopW
    cases ha : p.active with
    | false =>
      simp only [ha, Bool.not_false, if_true]
      exact ih (fun q hq hqa => h q (List.mem_cons_of_mem p hq) hqa)
    | true =>
      simp only [ha, Bool.not_true, Bool.false_eq_true, if_false]
      rw [h p (List.mem_cons_self p rest) ha]
      exact ih (fun q hq hqa => h q (List.mem_cons_of_mem p hq) hqa)

/-- recordRedirect touches only the redirectLocation field. -/
theorem recordRedirect_proj (r : DomainResultW) (st : Nat) (hdrs : List (String × String)) :
    (recordRedirect r st hdrs).statusCode = r.statusCode ∧
    (recordRedirect r st hdrs).isWordPress = r.isWordPress ∧
    (recordRedirect r st hdrs).wpVersion = r.wpVersion ∧
    (recordRedirect r st hdrs).wpTheme = r.wpTheme ∧
    (recordRedirect r st hdrs).wpPlugins = r.wpPlugins ∧
    (recordRedirect r st hdrs).error = r.error := by
  unfold recordRedirect
  cases headerGet hdrs "Location" with
  | none => exact ⟨rfl, rfl, rfl, rfl, rfl, rfl⟩
  | some loc =>
    cases st == 301 || st == 302 <;> exact ⟨rfl, rfl, rfl, rfl, rfl, rfl⟩

/-- C6.  When the direct fetch of the WIP prototype returns the blocked
status 403 and every active proxy attempt fails at the transport level, the
run terminates with status forced to 403, the explanatory error string
recorded, and the classification fields untouched (classification is
skipped). -/
theorem claim6_theorem (server : ServerE)
    (pfetch : Proxy → Option (Nat × String × List (String × String)))
    (rawDomain : String) (hdrs : List (String × String)) (body : String)
    (proxies : List Proxy)
    (hdirect : server (normalizeDomain rawDomain) = .ok (403, hdrs, body))
    (hfail : ∀ p ∈ proxies, p.active = true → pfetch p = none) :
    (mainW server (.ok proxies) pfetch rawDomain).statusCode = 403 ∧
    (mainW server (.ok proxies) pfetch rawDomain).error =
      some "All proxies failed or returned 403" ∧
    (mainW server (.ok proxies) pfetch rawDomain).isWordPress = false ∧
    (mainW server (.ok proxies) pfetch rawDomain).wpVersion = "" ∧
    (mainW server (.ok proxies) pfetch rawDomain).wpTheme = "" ∧
    (mainW server (.ok proxies) pfetch rawDomain).wpPlugins = [] := by
  have hcheck : checkDomainW server (normalizeDomain rawDomain) = .ok (403, body, hdrs) := by
    unfold checkDomainW
    rw [hdirect]
  unfold mainW
  simp only [hcheck, beq_self_eq_true, Bool.not_true, Bool.false_eq_true, if_false]
  rw [proxyLoopW_exhaust pfetch proxies _ hfail]
  refine ⟨rfl, rfl, ?_, ?_, ?_, ?_⟩
  · exact (recordRedirect_proj _ _ _).2.1
  · exact (recordRedirect_proj _ _ _).2.2.1
  · exact (recordRedirect_proj _ _ _).2.2.2.1
  · exact (recordRedirect_proj _ _ _).2.2.2.2.1

/-- Witness for C6 at a concrete server, pool and failing proxy fetch. -/
theorem claim6_witness :
    (mainW (fun _ => .ok (403, [], "x"))
        (.ok [⟨"h", "1", "", "", "http", true⟩]) (fun _ => none) "example.com").statusCode =
      403 ∧
    (mainW (fun _ => .ok (403, [], "x"))
        (.ok [⟨"h", "1", "", "", "http", true⟩]) (fun _ => none) "example.com").error =
      some "All proxies failed or returned 403" ∧
    (mainW (fun _ => .ok (403, [], "x"))
        (.ok [⟨"h", "1", "", "", "http", true⟩]) (fun _ => none) "example.com").isWordPress =
      false := by
  have h := claim6_theorem (fun _ => .ok (403, [], "x")) (fun _ => none) "example.com"
    [] "x" [⟨"h", "1", "", "", "http", true⟩] rfl (fun p hp ha => rfl)
  exact ⟨h.1, h.2.1, h.2.2.1⟩

/-! ## Claim C7 -/

/-- filterMap of a function that succeeds on every element of a list is the
map of its forced value. -/
theorem filterMap_eq_map_of_some {α β : Type} (p : α → Option β) (g : α → β) :
    ∀ l : List α, (∀ a ∈ l, p a = some (g a)) → l.filterMap p = l.map g := by
  intro l
  induction l with
  | nil => intro _; rfl
  | cons a t ih =>
    intro h
    rw [List.filterMap_cons, h a (List.mem_cons_self a t), List.map_cons,
      ih (fun b hb => h b (List.mem_cons_of_mem a hb))]

/-- Uniformity extracted from a successful load. -/
theorem csvUniform_forall {header : List String} {data : List (List String)}
    (hu : csvUniform (header :: data) = true) :
    ∀ r ∈ data, r.length = header.length := by
  intro r hr
  have := (by simpa [csvUniform, List.all_eq_true] using hu :
    ∀ x ∈ data, x.length = header.length)
  exact this r hr

/-- C7.  (i) Whenever the pool loaded and index i names a loaded proxy,
deactivating i rewrites exactly the record the descriptor was loaded from
(record i+1, counting the header): that record's field 5 becomes "false",
its other fields are unchanged, every other record is unchanged, and the
record count (hence order) is preserved.  (ii) Under the csv reader's
uniform-field-count rule, a successfully loaded file in which the loader
skipped a malformed (short) row necessarily produced an empty pool — so no
deactivation ever addresses such a file, and the property holds over all
pool contents. -/
theorem claim7_theorem :
    (∀ (rows : List (List String)) (proxies : List Proxy) (i : Nat),
      loadProxiesW rows = .ok proxies → i < proxies.length →
      parseProxyRow (rows.getD (i + 1) []) =
        some (proxies.getD i ⟨"", "", "", "", "", false⟩) ∧
      (markProxyAsInactiveW rows i).length = rows.length ∧
      (markProxyAsInactiveW rows i).getD (i + 1) [] =
        (rows.getD (i + 1) []).set 5 "false" ∧
      (∀ j, j ≠ 5 →
        ((markProxyAsInactiveW rows i).getD (i + 1) []).getD j "" =
          (rows.getD (i + 1) []).getD j "") ∧
      (∀ k, k ≠ i + 1 →
        (markProxyAsInactiveW rows i).getD k [] = rows.getD k [])) ∧
    (∀ (header : List String) (data : List (List String)) (proxies : List Proxy),
      loadProxiesW (header :: data) = .ok proxies →
      (∃ r ∈ data, r.length < 6) → proxies = []) := by
  constructor
  · intro rows proxies i hload hi
    rcases rows with _ | ⟨header, data⟩
    · exact absurd hload (by simp [loadProxiesW])
    have hload2 : (if csvUniform (header :: data) = true
        then Except.ok (data.filterMap parseProxyRow)
        else (Except.error "wrong number of fields" : Except String (List Proxy))) =
        Except.ok proxies := hload
    cases hu : csvUniform (header :: data) with
    | false =>
      rw [hu] at hload2
      simp at hload2
    | true =>
      rw [hu] at hload2
      simp only [if_pos] at hload2
      have hpx : proxies = data.filterMap parseProxyRow := by
        injection hload2 with h
        exact h.symm
      have hunif := csvUniform_forall hu
      by_cases h6 : 6 ≤ header.length
      · -- every data record is well-formed: positional correspondence holds
        set g : List String → Proxy := fun r =>
          ⟨r.getD 0 "", r.getD 1 "", r.getD 2 "", r.getD 3 "", r.getD 4 "",
            parseBoolGo (r.getD 5 "")⟩ with hg
        have hall : ∀ r ∈ data, parseProxyRow r = some (g r) := by
          intro r hr
          unfold parseProxyRow
          rw [if_pos]
          rw [Nat.ble_eq, hunif r hr]
          exact h6
        have hmap := filterMap_eq_map_of_some parseProxyRow g data hall
        have hlen : proxies.length = data.length := by
          rw [hpx, hmap, List.length_map]
        have hid : i < data.length := by omega
        have hrows : (header :: data).length = data.length + 1 := rfl
        have hguard : Nat.blt (i + 1) (header :: data).length = true := by
          rw [Nat.blt_eq, hrows]
          omega
        have hrow : (header :: data).getD (i + 1) [] = data.getD i [] :=
          List.getD_cons_succ
        have hmark : markProxyAsInactiveW (header :: data) i =
            (header :: data).set (i + 1)
              (setRow5 ((header :: data).getD (i + 1) [])) := by
          unfold markProxyAsInactiveW
          rw [hguard]
          simp
        have hi1 : i + 1 < (header :: data).length := by
          rw [hrows]; omega
        have hset : (markProxyAsInactiveW (header :: data) i).getD (i + 1) [] =
            setRow5 ((header :: data).getD (i + 1) []) := by
          rw [hmark, List.getD_eq_getElem?_getD, List.getElem?_set_self hi1]
          rfl
        refine ⟨?_, ?_, hset, ?_, ?_⟩
        · -- the record addressed is the one the descriptor was loaded from
          have hmlen : i < (List.map g data).length := by
            rw [List.length_map]
            exact hid
          rw [hrow, List.getD_eq_getElem data [] hid]
          rw [hall (data[i]) (List.getElem_mem hid)]
          rw [hpx, hmap, List.getD_eq_getElem (List.map g data) _ hmlen, List.getElem_map]
        · rw [hmark, List.length_set]
        · intro j hj
          rw [hset]
          unfold setRow5
          rw [List.getD_eq_getElem?_getD, List.getElem?_set_ne (fun h => hj h.symm)]
          exact (List.getD_eq_getElem?_getD _ _ _).symm
        · intro k hk
          rw [hmark, List.getD_eq_getElem?_getD,
            List.getElem?_set_ne (fun h => hk h.symm)]
          exact (List.getD_eq_getElem?_getD _ _ _).symm
      · -- all records short: the pool is empty, contradicting i < length
        have hnil : data.filterMap parseProxyRow = [] := by
          rw [List.filterMap_eq_nil_iff]
          intro r hr
          unfold parseProxyRow
          rw [if_neg]
          rw [Nat.ble_eq, hunif r hr]
          omega
        rw [hpx, hnil] at hi
        exact absurd hi (by simp)
  · rintro header data proxies hload ⟨r, hr, hrlen⟩
    have hload2 : (if csvUniform (header :: data) = true
        then Except.ok (data.filterMap parseProxyRow)
        else (Except.error "wrong number of fields" : Except String (List Proxy))) =
        Except.ok proxies := hload
    cases hu : csvUniform (header :: data) with
    | false =>
      rw [hu] at hload2
      simp at hload2
    | true =>
      rw [hu] at hload2
      simp only [if_pos] at hload2
      have hunif := csvUniform_forall hu
      have hshort : header.length < 6 := by
        rw [← hunif r hr]
        exact hrlen
      have hnil : data.filterMap parseProxyRow = [] := by
        rw [List.filterMap_eq_nil_iff]
        intro x hx
        unfold parseProxyRow
        rw [if_neg]
        rw [Nat.ble_eq, hunif x hx]
        omega
      injection hload2 with h
      rw [← h, hnil]

/-- Witness for C7 at a concrete proxy file. -/
theorem claim7_witness :
    loadProxiesW
        [["host", "port", "user", "pass", "type", "active"],
         ["1.2.3.4", "8080", "", "", "http", "true"],
         ["5.6.7.8", "3128", "u", "p", "socks5", "true"]] =
      .ok [⟨"1.2.3.4", "8080", "", "", "http", true⟩,
           ⟨"5.6.7.8", "3128", "u", "p", "socks5", true⟩] ∧
    markProxyAsInactiveW
        [["host", "port", "user", "pass", "type", "active"],
         ["1.2.3.4", "8080", "", "", "http", "true"],
         ["5.6.7.8", "3128", "u", "p", "socks5", "true"]] 1 =
      [["host", "port", "user", "pass", "type", "active"],
       ["1.2.3.4", "8080", "", "", "http", "true"],
       ["5.6.7.8", "3128", "u", "p", "socks5", "false"]] ∧
    (markProxyAsInactiveW
        [["host", "port", "user", "pass", "type", "active"],
         ["1.2.3.4", "8080", "", "", "http", "true"],
         ["5.6.7.8", "3128", "u", "p", "socks5", "true"]] 1).getD 2 [] =
      (([["host", "port", "user", "pass", "type", "active"],
         ["1.2.3.4", "8080", "", "", "http", "true"],
         ["5.6.7.8", "3128", "u", "p", "socks5", "true"]] :
          List (List String)).getD 2 []).set 5 "false" := by
  have h := claim7_theorem.1
    [["host", "port", "user", "pass", "type", "active"],
     ["1.2.3.4", "8080", "", "", "http", "true"],
     ["5.6.7.8", "3128", "u", "p", "socks5", "true"]]
    [⟨"1.2.3.4", "8080", "", "", "http", true⟩,
     ⟨"5.6.7.8", "3128", "u", "p", "socks5", true⟩] 1 rfl (by decide)
  exact ⟨rfl, by decide, h.2.2.1⟩

/-! ## Claim C8 -/

/-- Membership in the deduplicated list: an element is kept exactly when it
occurs in the input and was not already seen. -/
theorem mem_dedupFirstAux (a : String) :
    ∀ (l seen : List String), a ∈ dedupFirstAux seen l ↔ a ∈ l ∧ a ∉ seen := by
  intro l
  induction l with
  | nil =>
    intro seen
    simp [dedupFirstAux]
  | cons x xs ih =>
    intro seen
    unfold dedupFirstAux
    by_cases hx : x ∈ seen
    · rw [if_pos (by simpa using hx), ih seen]
      constructor
      · rintro ⟨h1, h2⟩
        exact ⟨List.mem_cons_of_mem x h1, h2⟩
      · rintro ⟨h1, h2⟩
        rcases List.mem_cons.mp h1 with rfl | h3
        · exact absurd hx h2
        · exact ⟨h3, h2⟩
    · rw [if_neg (by simpa using hx), List.mem_cons, ih (x :: seen)]
      constructor
      · rintro (rfl | ⟨h1, h2⟩)
        · exact ⟨List.mem_cons_self _ _, hx⟩
        · exact ⟨List.mem_cons_of_mem x h1, fun hs => h2 (List.mem_cons_of_mem x hs)⟩
      · rintro ⟨h1, h2⟩
        by_cases hax : a = x
        · exact Or.inl hax
        · rcases List.mem_cons.mp h1 with h0 | h3
          · exact absurd h0 hax
          · refine Or.inr ⟨h3, fun hs => ?_⟩
            rcases List.mem_cons.mp hs with h4 | h4
            · exact hax h4
            · exact h2 h4

/-- The deduplicated list has no duplicates. -/
theorem nodup_dedupFirstAux :
    ∀ (l seen : List String), (dedupFirstAux seen l).Nodup := by
  intro l
  induction l with
  | nil =>
    intro seen
    simp [dedupFirstAux]
  | cons x xs ih =>
    intro seen
    unfold dedupFirstAux
    by_cases hx : x ∈ seen
    · rw [if_pos (by simpa using hx)]
      exact ih seen
    · rw [if_neg (by simpa using hx)]
      refine List.nodup_cons.mpr ⟨?_, ih (x :: seen)⟩
      intro hmem
      exact ((mem_dedupFirstAux x xs (x :: seen)).mp hmem).2 (List.mem_cons_self _ _)

/-- C8.  For every body the WIP/PHP classifier recognises, the add-on list
contains no duplicates and holds exactly the names captured by the add-on
path pattern; the theme field is the first captured theme directory name;
and the concrete body holding the foo and bar plugin paths twice each
yields exactly ["foo", "bar"]. -/
theorem claim8_theorem :
    (∀ body : String, (detectWordPressW body).1 = true →
      ((detectWordPressW body).2.plugins.Nodup ∧
        ∀ x, x ∈ (detectWordPressW body).2.plugins ↔ x ∈ pluginFindAll body) ∧
      (∀ t, themeFind body = some t → (detectWordPressW body).2.theme = t)) ∧
    detectWordPressW
        "/wp-content/plugins/foo/ /wp-content/plugins/bar/ /wp-content/plugins/foo/ /wp-content/plugins/bar/" =
      (true, ⟨"", "", ["foo", "bar"]⟩) := by
  constructor
  · intro body hdet
    cases hind : wpIndicators.any (fun ind => hasSub body ind) with
    | false =>
      unfold detectWordPressW at hdet
      rw [hind] at hdet
      simp at hdet
    | true =>
      have hW : detectWordPressW body = (true,
          { version := (firstSomeVersion (versionCandidatesW body)).getD "",
            theme := (themeFind body).getD "",
            plugins := dedupFirst (pluginFindAll body) }) := by
        unfold detectWordPressW
        rw [hind, if_pos rfl]
      rw [hW]
      refine ⟨⟨?_, ?_⟩, ?_⟩
      · exact nodup_dedupFirstAux (pluginFindAll body) []
      · intro x
        unfold dedupFirst
        rw [mem_dedupFirstAux]
        simp
      · intro t ht
        simp [ht]
  · decide

/-- Witness for C8 at a concrete body. -/
theorem claim8_witness :
    (detectWordPressW "/wp-content/plugins/a/ x /wp-content/themes/t1/").1 = true ∧
    (detectWordPressW "/wp-content/plugins/a/ x /wp-content/themes/t1/").2.plugins.Nodup ∧
    (detectWordPressW "/wp-content/plugins/a/ x /wp-content/themes/t1/").2.theme = "t1" := by
  have h := claim8_theorem.1 "/wp-content/plugins/a/ x /wp-content/themes/t1/" (by decide)
  exact ⟨by decide, h.1.1, h.2 "t1" (by decide)⟩

/-! ## Claim C9 -/

/-- Inductive invariant of the scheduler: the held slots never exceed the
capacity, and the results, running work and pending work together always
account for exactly the input batch. -/
theorem batch_invariant {α : Type} (f : String → α) (cap : Nat) (domains : List String)
    (s : BatchState α) (h : BatchReach f cap (initBatch domains) s) :
    s.running.length ≤ cap ∧
    (↑s.results + ↑(s.running.map f) + ↑(s.toSpawn.map f) : Multiset α) =
      (↑(domains.map f) : Multiset α) := by
  induction h with
  | refl => exact ⟨by simp [initBatch], by simp [initBatch]⟩
  | tail hreach hstep ih =>
    obtain ⟨ih1, ih2⟩ := ih
    cases hstep with
    | spawn d ds run res hlt =>
      refine ⟨by simpa using hlt, ?_⟩
      simp only [List.map_append, List.map_cons, List.map_nil, ← Multiset.coe_add,
        ← Multiset.cons_coe, ← Multiset.singleton_add, Multiset.coe_nil] at ih2 ⊢
      rw [← ih2]
      abel
    | finish ds run1 run2 d res =>
      constructor
      · have : (run1 ++ d :: run2).length ≤ cap := ih1
        simp only [List.length_append, List.length_cons] at this ⊢
        omega
      · simp only [List.map_append, List.map_cons, List.map_nil, ← Multiset.coe_add,
          ← Multiset.cons_coe, ← Multiset.singleton_add, Multiset.coe_nil] at ih2 ⊢
        rw [← ih2]
        abel

/-- C9.  For every batch, cap and scheduling, a reachable state of
processDomainsConcurrently never holds more than cap slots — never more
than cap per-domain evaluations in flight — and every terminal state (loop
finished, all goroutines done) has collected exactly one result per input
domain: a permutation of checkDomain over the inputs, hence exactly B
entries for a batch of B domains. -/
theorem claim9_theorem {α : Type} (f : String → α) (cap : Nat) (domains : List String)
    (s : BatchState α) (h : BatchReach f cap (initBatch domains) s) :
    s.running.length ≤ cap ∧
    (s.toSpawn = [] → s.running = [] →
      s.results.Perm (domains.map f) ∧ s.results.length = domains.length) := by
  obtain ⟨h1, h2⟩ := batch_invariant f cap domains s h
  refine ⟨h1, fun ht hr => ?_⟩
  rw [ht, hr] at h2
  simp only [List.map_nil, Multiset.coe_nil, add_zero] at h2
  have hperm : s.results.Perm (domains.map f) := Multiset.coe_eq_coe.mp h2
  exact ⟨hperm, by rw [hperm.length_eq, List.length_map]⟩

/-- Witness for C9: a two-domain batch under capacity one, scheduled to
completion. -/
theorem claim9_witness :
    (⟨[], [], ["x", "y"]⟩ : BatchState String).running.length ≤ 1 ∧
    (⟨[], [], ["x", "y"]⟩ : BatchState String).results.Perm
      (["x", "y"].map (fun d => d)) := by
  have h1 : BatchStep (fun d : String => d) 1 (initBatch ["x", "y"]) ⟨["y"], ["x"], []⟩ :=
    BatchStep.spawn "x" ["y"] [] [] (by decide)
  have h2 : BatchStep (fun d : String => d) 1 ⟨["y"], ["x"], []⟩ ⟨["y"], [], ["x"]⟩ :=
    BatchStep.finish ["y"] [] [] "x" []
  have h3 : BatchStep (fun d : String => d) 1 ⟨["y"], [], ["x"]⟩ ⟨[], ["y"], ["x"]⟩ :=
    BatchStep.spawn "y" [] [] ["x"] (by decide)
  have h4 : BatchStep (fun d : String => d) 1 ⟨[], ["y"], ["x"]⟩ ⟨[], [], ["x", "y"]⟩ :=
    BatchStep.finish [] [] [] "y" ["x"]
  have hsteps : BatchReach (fun d : String => d) 1 (initBatch ["x", "y"])
      ⟨[], [], ["x", "y"]⟩ :=
    Relation.ReflTransGen.tail (Relation.ReflTransGen.tail
      (Relation.ReflTransGen.tail (Relation.ReflTransGen.single h1) h2) h3) h4
  have h := claim9_theorem (fun d : String => d) 1 ["x", "y"] ⟨[], [], ["x", "y"]⟩ hsteps
  exact ⟨h.1, (h.2 rfl rfl).1⟩

/-! ## Claim C10 -/

/-- No status-code message collides with the blank-screen message. -/
theorem statusMsg_ne (st : Nat) : ("status code " ++ Nat.repr st) ≠ "blank screen" := by
  intro h
  have h1 : ("status code " ++ Nat.repr st).data.head? = some 's' := rfl
  rw [h] at h1
  exact absurd h1 (by decide)

/-- "blank screen" never occurs among the status-code errors. -/
theorem blank_not_in_status (st : Nat) (body : String) :
    "blank screen" ∉
      (if st == 200 then ([] : List String) else
        ["status code " ++ Nat.repr st] ++
        (if st == 403 && isCloudflare body then ["blocked by Cloudflare"] else [])) := by
  cases st == 200 with
  | true => simp
  | false =>
    cases st == 403 && isCloudflare body with
    | true =>
      simp only [Bool.false_eq_true, if_false, if_pos, List.cons_append, List.nil_append,
        List.mem_cons, List.mem_singleton]
      rintro (h | h)
      · exact statusMsg_ne st h.symm
      · exact absurd h (by decide)
    | false =>
      simp only [Bool.false_eq_true, if_false, List.append_nil, List.mem_singleton]
      intro h
      exact statusMsg_ne st h.symm

/-- C10.  Once validation, DNS and the direct fetch succeed, the result's
error list contains the entry "blank screen" exactly when the fetched
body's tag-stripped content is empty or whitespace-only; for non-blank
bodies no such entry is added. -/
theorem claim10_theorem (domain : String) (dnsOK : Bool) (fetch : Bool → FetchOut)
    (hv : isValidDomain domain = true) (hd : dnsOK = true)
    (hok : (fetch false).err = none) :
    ("blank screen" ∈ ((checkDomainGo domain dnsOK fetch).1).errors ↔
      isBlankScreen (fetch false).body = true) := by
  have hx : x509Err (fetch false).err = false := by
    rw [hok]
    rfl
  have he : errHead (fetch false) = [] := by
    unfold errHead
    rw [hok]
  unfold checkDomainGo
  subst hd
  simp only [hv, Bool.not_true, Bool.false_eq_true, if_false, hx]
  rw [he]
  unfold finishCheck
  simp only [List.nil_append, List.mem_append]
  constructor
  · rintro (hmem | hmem)
    · exact absurd hmem (blank_not_in_status _ _)
    · cases hb : isBlankScreen (fetch false).body with
      | true => rfl
      | false =>
        rw [hb] at hmem
        simp at hmem
  · intro hb
    right
    rw [hb]
    simp

/-- Witness for C10 at a concrete blank body. -/
theorem claim10_witness :
    isValidDomain "example.com" = true ∧
    isBlankScreen "<p> </p>" = true ∧
    "blank screen" ∈ ((checkDomainGo "example.com" true
      (fun _ => ⟨"https://example.com", 200, "<p> </p>", none⟩)).1).errors := by
  have h := claim10_theorem "example.com" true
    (fun _ => ⟨"https://example.com", 200, "<p> </p>", none⟩) (by decide) rfl rfl
  exact ⟨by decide, by decide, h.mpr (by decide)⟩

end WPCheck
